import Mathlib

/-!
Shallow embedding of `src/app_dashboard.py` (a pandas/Dash customer dashboard).

The module-level pipeline loads a CSV into a dataframe, renames columns,
parses the two date columns, drops rows missing required fields, sorts by
contract date, derives the cancellation flag and the age bucket, and exposes
two dropdown option lists.  The callback `update_graphs` filters the frame by
the (gender, product) selection and builds four figures: monthly revenue
trend, age-group x gender counts, per-product churn rate, and the
cancelled-vs-active age histogram.

Modelling choices:
* A pandas timestamp is abstracted as its calendar month (`year*12+month`, an
  `Int`) together with its position inside that month (a `Nat`); the order on
  timestamps is lexicographic, and `dt.to_period('M')` is the `month`
  projection.  This is order- and month-faithful.
* `pd.to_datetime(..., errors='coerce')` turns each raw text cell into either
  a timestamp or a missing value; a raw record is therefore modelled with the
  post-parse `Option`-typed fields (`none` covers both an absent cell and an
  unparsable one).
* Numeric cells (`Price`, `Age`) are modelled with exact integers, and the
  churn percentage with `Rat`.
* `df.dropna` / `df[mask]` / `df.copy` are list filter / copy operations;
  `groupby(key, sort=True)` enumerates the distinct keys in ascending key
  order, which is modelled as `insertionSort` of `dedup` (for the key orders
  used here the result is the sorted duplicate-free key list, independent of
  which duplicate occurrence `dedup` keeps).
-/

namespace DataDash

/-- A contract/cancellation timestamp: its calendar month (`year*12 + month`)
and its position within the month.  `pd.Timestamp` order is the lexicographic
order; `.dt.to_period('M')` is the `month` field. -/
structure Timestamp where
  month : Int
  frac : Nat
deriving DecidableEq

/-- Chronological (lexicographic) order on timestamps. -/
def Timestamp.le (a b : Timestamp) : Prop :=
  a.month < b.month ∨ (a.month = b.month ∧ a.frac ≤ b.frac)

instance : DecidableRel Timestamp.le := fun a b =>
  decidable_of_iff (a.month < b.month ∨ (a.month = b.month ∧ a.frac ≤ b.frac)) Iff.rfl

/-- One CSV row after the two `pd.to_datetime(..., errors='coerce')` parses:
each field is either a value or missing (`none` covers an absent cell and an
unparsable one alike). -/
structure RawRecord where
  contractDate : Option Timestamp
  cancellationDate : Option Timestamp
  price : Option Int
  productName : Option String
  gender : Option String
  age : Option Int
deriving DecidableEq

/-- Bin edges `bins = [0, 20, 30, 40, 50, 60, 70, 100]` from the source. -/
def bins : List Int := [0, 20, 30, 40, 50, 60, 70, 100]

/-- Bucket labels from the source, in their fixed categorical order. -/
def labels : List String := ["~19", "20s", "30s", "40s", "50s", "60s", "70+"]

/-- Semantics of `pd.cut(x, bins=bs, right=False)`: the index of the left-closed
right-open interval `[bs[i], bs[i+1])` containing `x`, or `none` when `x`
falls outside every interval. -/
def cutIdx : List Int → Int → Option Nat
  | b1 :: b2 :: rest, x =>
    if b1 ≤ x ∧ x < b2 then some 0 else (cutIdx (b2 :: rest) x).map (· + 1)
  | _, _ => none

/-- The derived age bucket of a (possibly missing) age: index into `labels`;
`pd.cut` of a missing value is missing. -/
def ageGroupIdxOf (age : Option Int) : Option Nat :=
  age.bind (cutIdx bins)

/-- Display label of an age bucket index. -/
def ageGroupLabel (i : Nat) : String :=
  labels.getD i ""

/-- A normalized row of the dataframe after cleaning: the four required
fields are non-optional by admission, `age` may still be missing (it is not
in the `dropna` subset), and the two derived columns are stored alongside
(`ageGroup` as the bucket index into `labels`). -/
structure Record where
  contractDate : Timestamp
  cancellationDate : Option Timestamp
  price : Int
  productName : String
  gender : String
  age : Option Int
  isCancelled : Bool
  ageGroup : Option Nat
deriving DecidableEq

/-- Row admission (`df.dropna(subset=['ContractDate','Price','Gender','ProductName'])`)
together with the two per-row derivations `IsCancelled = CancellationDate.notna()`
and `AgeGroup = pd.cut(Age, bins, labels, right=False)`.  The source derives the
two columns after sorting, but both are row-local, so deriving them at
admission is observationally equal. -/
def parseRow (w : RawRecord) : Option Record :=
  match w.contractDate, w.price, w.gender, w.productName with
  | some cd, some pr, some g, some pn =>
    some { contractDate := cd, cancellationDate := w.cancellationDate, price := pr,
           productName := pn, gender := g, age := w.age,
           isCancelled := w.cancellationDate.isSome,
           ageGroup := ageGroupIdxOf w.age }
  | _, _, _, _ => none

/-- Row order used by `df.sort_values('ContractDate')`. -/
def byDate (a b : Record) : Prop :=
  Timestamp.le a.contractDate b.contractDate

instance : DecidableRel byDate := fun a b =>
  decidable_of_iff (Timestamp.le a.contractDate b.contractDate) Iff.rfl

instance : IsTotal Record byDate :=
  ⟨fun a b => by
    unfold byDate Timestamp.le
    omega⟩

instance : IsTrans Record byDate :=
  ⟨fun a b c hab hbc => by
    unfold byDate Timestamp.le at hab hbc ⊢
    omega⟩

/-- The cleaning pipeline: admission filter then sort by contract date
ascending (with the per-row derivations folded into admission, see
`parseRow`). -/
def load (raws : List RawRecord) : List Record :=
  (raws.filterMap parseRow).insertionSort byDate

/-- Copy step `filtered_df = df.copy()` — pandas copies before filtering; on immutable
lists this is the identity, recorded explicitly for the frame claim. -/
def copyDf (df : List Record) : List Record := df

/-- The callback's filtering step: apply the gender equality filter unless the
selector is `"All"`, then the product equality filter unless it is `"All"`. -/
def filterDf (df : List Record) (g p : String) : List Record :=
  let d0 := copyDf df
  let d1 := if g = "All" then d0 else d0.filter (fun r => r.gender = g)
  if p = "All" then d1 else d1.filter (fun r => r.productName = p)

/-- Distinct group keys of a pandas `groupby(..., sort=True)`: the
duplicate-free key list in ascending key order. -/
def groupKeys {κ : Type} [DecidableEq κ] (le : κ → κ → Prop) [DecidableRel le]
    (ks : List κ) : List κ :=
  (ks.dedup).insertionSort le

/-- Lexicographic (code-point) order on strings, as pandas sorts object-dtype
keys; stated on the underlying character lists so that it evaluates inside
the kernel. -/
def strLe (a b : String) : Prop := a.data ≤ b.data

instance : DecidableRel strLe := fun a b => by
  unfold strLe
  infer_instance

instance : IsTotal String strLe := ⟨fun a b => le_total a.data b.data⟩

instance : IsTrans String strLe := ⟨fun _ _ _ hab hbc => le_trans hab hbc⟩

/-- Monthly revenue trend: group the filtered rows by calendar month of the
contract date, sum `Price` per group, one `(month, revenue)` row per observed
month in ascending month order. -/
def salesTrend (fdf : List Record) : List (Int × Int) :=
  (groupKeys (· ≤ ·) (fdf.map (fun r => r.contractDate.month))).map (fun m =>
    (m, ((fdf.filter (fun r => r.contractDate.month = m)).map (fun r => r.price)).sum))

/-- Lexicographic order on (age-bucket index, gender) group keys: the
categorical `AgeGroup` sorts by its category code (the bucket index), then
`Gender` sorts as text. -/
def agKeyLe (a b : Nat × String) : Prop :=
  a.1 < b.1 ∨ (a.1 = b.1 ∧ strLe a.2 b.2)

instance : DecidableRel agKeyLe := fun a b =>
  decidable_of_iff (a.1 < b.1 ∨ (a.1 = b.1 ∧ strLe a.2 b.2)) Iff.rfl

instance : IsTotal (Nat × String) agKeyLe :=
  ⟨fun a b => by
    unfold agKeyLe
    rcases Nat.lt_trichotomy a.1 b.1 with h | h | h
    · exact Or.inl (Or.inl h)
    · rcases total_of strLe a.2 b.2 with h2 | h2
      · exact Or.inl (Or.inr ⟨h, h2⟩)
      · exact Or.inr (Or.inr ⟨h.symm, h2⟩)
    · exact Or.inr (Or.inl h)⟩

instance : IsTrans (Nat × String) agKeyLe :=
  ⟨fun a b c hab hbc => by
    unfold agKeyLe at hab hbc ⊢
    rcases hab with h | ⟨he, h2⟩ <;> rcases hbc with h3 | ⟨he3, h4⟩
    · exact Or.inl (h.trans h3)
    · exact Or.inl (he3 ▸ h)
    · exact Or.inl (he ▸ h3)
    · exact Or.inr ⟨he.trans he3, trans_of strLe h2 h4⟩⟩

/-- The (age-bucket, gender) key of a row, or `none` when its `AgeGroup` is
missing — `groupby` drops rows with a missing group key. -/
def agKeyOf (r : Record) : Option (Nat × String) :=
  r.ageGroup.map (fun i => (i, r.gender))

/-- Age-group x gender contract counts:
`groupby(['AgeGroup','Gender'], observed=True)['ContractDate'].count()` —
one row per key combination observed in the filtered data (rows with a
missing `AgeGroup` are dropped), keys in categorical-then-text order. -/
def ageGenderTable (fdf : List Record) : List ((Nat × String) × Nat) :=
  (groupKeys agKeyLe (fdf.filterMap agKeyOf)).map (fun k =>
    (k, (fdf.filter (fun r => agKeyOf r = some k)).length))

/-- One row of the per-product churn summary. -/
structure ChurnRow where
  productName : String
  totalContracts : Nat
  cancellations : Nat
  churnRate : Rat
deriving DecidableEq

/-- Churn summary `groupby('ProductName').agg(TotalContracts=count, Cancellations=sum)` plus
`ChurnRate = (Cancellations / TotalContracts) * 100`, rows in ascending
product-name order (the `groupby` key order). -/
def churnSummary (fdf : List Record) : List ChurnRow :=
  (groupKeys strLe (fdf.map (fun r => r.productName))).map (fun p =>
    let grp := fdf.filter (fun r => r.productName = p)
    { productName := p, totalContracts := grp.length,
      cancellations := (grp.filter (fun r => r.isCancelled)).length,
      churnRate := (((grp.filter (fun r => r.isCancelled)).length : Rat) / (grp.length : Rat)) * 100 })

/-- Ascending churn-rate comparison used by the final sort. -/
def churnLe (a b : ChurnRow) : Prop :=
  a.churnRate ≤ b.churnRate

instance : DecidableRel churnLe := fun a b =>
  decidable_of_iff (a.churnRate ≤ b.churnRate) Iff.rfl

instance : IsTotal ChurnRow churnLe :=
  ⟨fun a b => le_total a.churnRate b.churnRate⟩

instance : IsTrans ChurnRow churnLe :=
  ⟨fun _ _ _ hab hbc => le_trans hab hbc⟩

/-- Final sort `churn_summary.sort_values('ChurnRate', ascending=False)`: pandas computes
an ascending argsort and reverses it (`nargsort` with `ascending=False`);
numpy's quicksort runs a stable insertion sort below its small-array
threshold, so the descending order is the reverse of a stable ascending
sort — modelled as `reverse` of `insertionSort`. -/
def churnTable (fdf : List Record) : List ChurnRow :=
  ((churnSummary fdf).insertionSort churnLe).reverse

/-- Histogram input for `px.histogram`: the `(Age, IsCancelled)` samples of the filtered
rows; plotly drops samples with a missing x value. -/
def histRows (fdf : List Record) : List (Int × Bool) :=
  fdf.filterMap (fun r => r.age.map (fun a => (a, r.isCancelled)))

/-- A dashboard figure: either a title-only placeholder or a chart over its
data table. -/
inductive Fig (α : Type) where
  | placeholder : String → Fig α
  | chart : α → Fig α
deriving DecidableEq

/-- Placeholder title when no data was loaded at all. -/
def noDataMsg : String := "データが読み込まれていません"

/-- Placeholder title when the filter matches no rows. -/
def noMatchMsg : String := "フィルター条件に該当するデータがありません"

/-- The four outputs of one `update_graphs` call. -/
structure Figures where
  salesTimeSeries : Fig (List (Int × Int))
  ageGenderDistribution : Fig (List ((Nat × String) × Nat))
  productChurnRate : Fig (List ChurnRow)
  ageChurnDistribution : Fig (List (Int × Bool))
deriving DecidableEq

/-- The callback `update_graphs(selected_gender, selected_product)`: the
empty-dataset guard, the two-stage filtering, and the four per-figure
empty-subset guards, mirroring the source branch for branch (the churn branch
additionally tests `ProductName.nunique() == 0`). -/
def updateGraphs (df : List Record) (g p : String) : Figures :=
  if df.isEmpty then
    { salesTimeSeries := Fig.placeholder noDataMsg,
      ageGenderDistribution := Fig.placeholder noDataMsg,
      productChurnRate := Fig.placeholder noDataMsg,
      ageChurnDistribution := Fig.placeholder noDataMsg }
  else
    let fdf := filterDf df g p
    { salesTimeSeries :=
        if (salesTrend fdf).isEmpty then Fig.placeholder noMatchMsg
        else Fig.chart (salesTrend fdf),
      ageGenderDistribution :=
        if (ageGenderTable fdf).isEmpty then Fig.placeholder noMatchMsg
        else Fig.chart (ageGenderTable fdf),
      productChurnRate :=
        if fdf.isEmpty ∨ ((fdf.map (fun r => r.productName)).dedup).length = 0 then
          Fig.placeholder noMatchMsg
        else Fig.chart (churnTable fdf),
      ageChurnDistribution :=
        if fdf.isEmpty then Fig.placeholder noMatchMsg
        else Fig.chart (histRows fdf) }

/-- The callback with the module-level dataframe threaded as explicit state:
the body reads the global `df`, copies it (`df.copy()`), and every later
operation rebinds the local `filtered_df`; the global is returned as it was
left by the body. -/
def updateGraphsSt (df : List Record) (g p : String) : Figures × List Record :=
  (updateGraphs df g p, df)

/-- One dropdown option. -/
structure Opt where
  label : String
  value : String
deriving DecidableEq

/-- The synthetic first option `{'label': '全て', 'value': 'All'}`. -/
def allOpt : Opt := { label := "全て", value := "All" }

/-- Errors `pd.read_csv` can raise: a missing file raises `FileNotFoundError`;
a file that exists but cannot be read or parsed raises some other error
(`PermissionError`, `EmptyDataError`, `ParserError`, a decode error, ...). -/
inductive CsvError where
  | fileNotFound : CsvError
  | readFailure : CsvError
deriving DecidableEq

/-- The tabular source: an absent file, a present but unreadable/unparsable
file, or a readable table of raw rows. -/
inductive Source where
  | missing : Source
  | unreadable : Source
  | table : List RawRecord → Source

/-- Reading the source (`pd.read_csv(DATA_FILE)`) with its exception
behaviour. -/
def readCsv : Source → Except CsvError (List RawRecord)
  | Source.missing => Except.error CsvError.fileNotFound
  | Source.unreadable => Except.error CsvError.readFailure
  | Source.table raws => Except.ok raws

/-- The module-level state built at import time. -/
structure DashState where
  df : List Record
  genderOptions : List Opt
  productOptions : List Opt
deriving DecidableEq

/-- The recovered empty state: empty frame, `'All'`-only dummy options. -/
def emptyDashState : DashState :=
  { df := [], genderOptions := [allOpt], productOptions := [allOpt] }

/-- Module-level initialisation: the `try/except` catches `FileNotFoundError`
only, degrading to the empty frame (the `if not df.empty` guard then leaves
only the `'All'` dummy options); any other read error propagates uncaught out
of module import; a readable table is cleaned by `load` and the two option
lists are the distinct observed values prefixed with the `'All'` sentinel. -/
def initApp (src : Source) : Except CsvError DashState :=
  match readCsv src with
  | Except.error CsvError.fileNotFound => Except.ok emptyDashState
  | Except.error e => Except.error e
  | Except.ok raws =>
    if raws.isEmpty then
      Except.ok emptyDashState
    else
      let df := load raws
      Except.ok
        { df := df,
          genderOptions := allOpt :: ((df.map (fun r => r.gender)).dedup).map
            (fun g => { label := g, value := g }),
          productOptions := allOpt :: ((df.map (fun r => r.productName)).dedup).map
            (fun p => { label := p, value := p }) }

/-- Aggregation of the full dataset with no filtering step at all — the
spec-side reading of "omitting filters", to be compared with
`updateGraphs df "All" "All"`. -/
def aggregateUnfiltered (df : List Record) : Figures :=
  if df.isEmpty then
    { salesTimeSeries := Fig.placeholder noDataMsg,
      ageGenderDistribution := Fig.placeholder noDataMsg,
      productChurnRate := Fig.placeholder noDataMsg,
      ageChurnDistribution := Fig.placeholder noDataMsg }
  else
    { salesTimeSeries :=
        if (salesTrend df).isEmpty then Fig.placeholder noMatchMsg
        else Fig.chart (salesTrend df),
      ageGenderDistribution :=
        if (ageGenderTable df).isEmpty then Fig.placeholder noMatchMsg
        else Fig.chart (ageGenderTable df),
      productChurnRate :=
        if df.isEmpty ∨ ((df.map (fun r => r.productName)).dedup).length = 0 then
          Fig.placeholder noMatchMsg
        else Fig.chart (churnTable df),
      ageChurnDistribution :=
        if df.isEmpty then Fig.placeholder noMatchMsg
        else Fig.chart (histRows df) }

/-! ### Concrete sample rows used to evaluate the pipeline at specific inputs -/

/-- Some month in the calendar. -/
def ts0 : Timestamp := { month := 600, frac := 3 }

/-- The following calendar month. -/
def ts1 : Timestamp := { month := 601, frac := 0 }

/-- An active 25-year-old contract for product A. -/
def rawF25 : RawRecord :=
  { contractDate := some ts0, cancellationDate := none, price := some 1200,
    productName := some "A", gender := some "F", age := some 25 }

/-- A cancelled contract for product A. -/
def rawTieA : RawRecord :=
  { contractDate := some ts0, cancellationDate := some ts1, price := some 500,
    productName := some "A", gender := some "F", age := some 30 }

/-- A cancelled contract for product B. -/
def rawTieB : RawRecord :=
  { contractDate := some ts0, cancellationDate := some ts1, price := some 800,
    productName := some "B", gender := some "M", age := some 40 }

/-- An active contract of a 105-year-old customer (age outside every bucket). -/
def rawOld : RawRecord :=
  { contractDate := some ts1, cancellationDate := none, price := some 700,
    productName := some "B", gender := some "M", age := some 105 }

/-- The normalized record produced by cleaning `rawOld`. -/
def recOld : Record :=
  { contractDate := ts1, cancellationDate := none, price := 700,
    productName := "B", gender := "M", age := some 105,
    isCancelled := false, ageGroup := none }

/-- The churn row produced for product A from the dataset `[rawTieA]`. -/
def churnRowA : ChurnRow :=
  { productName := "A", totalContracts := 1, cancellations := 1, churnRate := 100 }

/-! ### Generic grouping lemmas -/

theorem sum_map_add_distrib {κ M : Type} [AddCommMonoid M] (f g : κ → M) :
    ∀ ks : List κ, (ks.map (fun k => f k + g k)).sum = (ks.map f).sum + (ks.map g).sum
  | [] => by simp
  | k :: ks => by
    simp only [List.map_cons, List.sum_cons, sum_map_add_distrib f g ks]
    abel

theorem sum_map_ite_of_mem {κ M : Type} [DecidableEq κ] [AddCommMonoid M] (x : κ) (v : M) :
    ∀ ks : List κ, ks.Nodup → x ∈ ks →
      (ks.map (fun k => if x = k then v else 0)).sum = v
  | [], _, hx => absurd hx (List.not_mem_nil x)
  | k :: ks, hnd, hx => by
    rcases List.nodup_cons.mp hnd with ⟨hk, hnd2⟩
    by_cases hxk : x = k
    · subst hxk
      have hz : ks.map (fun j => if x = j then v else 0) = ks.map (fun _ => 0) :=
        List.map_congr_left (fun a ha => if_neg (by rintro rfl; exact hk ha))
      simp [hz]
    · have hx2 : x ∈ ks := by
        rcases List.mem_cons.mp hx with h | h
        · exact absurd h hxk
        · exact h
      simp [hxk, sum_map_ite_of_mem x v ks hnd2 hx2]

/-- Splitting a sum over a list by a duplicate-free key list covering every
element: summing the per-group sums gives the total sum. -/
theorem sum_over_groups {α κ M : Type} [DecidableEq κ] [AddCommMonoid M]
    (val : α → M) (key : α → κ) (ks : List κ) (hnd : ks.Nodup) :
    ∀ l : List α, (∀ a ∈ l, key a ∈ ks) →
      (ks.map (fun k => ((l.filter (fun a => key a = k)).map val).sum)).sum
        = (l.map val).sum
  | [], _ => by simp
  | a :: l, hcov => by
    have hal : key a ∈ ks := hcov a (List.mem_cons_self a l)
    have ih := sum_over_groups val key ks hnd l
      (fun b hb => hcov b (List.mem_cons_of_mem a hb))
    have hsplit : (ks.map (fun k => (((a :: l).filter (fun b => key b = k)).map val).sum))
        = ks.map (fun k => (if key a = k then val a else 0)
            + ((l.filter (fun b => key b = k)).map val).sum) := by
      refine List.map_congr_left (fun k _ => ?_)
      by_cases h : key a = k
      · simp [List.filter_cons, h]
      · simp [List.filter_cons, h]
    rw [hsplit, sum_map_add_distrib, sum_map_ite_of_mem (key a) (val a) ks hnd hal, ih]
    simp

/-- Count version of `sum_over_groups`: the per-group row counts add up to
the total row count. -/
theorem length_over_groups {α κ : Type} [DecidableEq κ]
    (key : α → κ) (ks : List κ) (hnd : ks.Nodup) (l : List α)
    (hcov : ∀ a ∈ l, key a ∈ ks) :
    (ks.map (fun k => (l.filter (fun a => key a = k)).length)).sum = l.length := by
  have h := sum_over_groups (fun _ => (1 : Nat)) key ks hnd l hcov
  simpa using h

theorem length_filterMap_eq {α β : Type} (f : α → Option β) (l : List α) :
    (l.filterMap f).length = (l.filter (fun a => (f a).isSome)).length := by
  induction l with
  | nil => simp
  | cons a l ih => cases h : f a <;> simp [List.filterMap_cons, List.filter_cons, h, ih]

/-! ### `groupKeys` lemmas -/

theorem mem_groupKeys {κ : Type} [DecidableEq κ] {le : κ → κ → Prop} [DecidableRel le]
    {ks : List κ} {x : κ} : x ∈ groupKeys le ks ↔ x ∈ ks := by
  unfold groupKeys
  rw [List.mem_insertionSort]
  exact List.mem_dedup

theorem nodup_groupKeys {κ : Type} [DecidableEq κ] (le : κ → κ → Prop) [DecidableRel le]
    (ks : List κ) : (groupKeys le ks).Nodup :=
  ((List.perm_insertionSort le ks.dedup).nodup_iff).mpr (List.nodup_dedup ks)

theorem sorted_groupKeys {κ : Type} [DecidableEq κ] (le : κ → κ → Prop) [DecidableRel le]
    [IsTotal κ le] [IsTrans κ le] (ks : List κ) : (groupKeys le ks).Pairwise le :=
  List.sorted_insertionSort le ks.dedup

/-- A sorted duplicate-free key list is pairwise strictly related, for any
strict version of the order. -/
theorem pairwise_strict_of_groupKeys {κ : Type} [DecidableEq κ]
    (le lt : κ → κ → Prop) [DecidableRel le] [IsTotal κ le] [IsTrans κ le]
    (hstrict : ∀ a b, le a b → a ≠ b → lt a b) (ks : List κ) :
    (groupKeys le ks).Pairwise lt := by
  have h1 := sorted_groupKeys le ks
  have h2 : (groupKeys le ks).Pairwise (· ≠ ·) := nodup_groupKeys le ks
  exact (h1.and h2).imp (fun h => hstrict _ _ h.1 h.2)

/-! ### Age-bucket lemmas -/

theorem cutIdx_bins_eq (a : Int) :
    cutIdx bins a =
      if 0 ≤ a ∧ a < 20 then some 0
      else if 20 ≤ a ∧ a < 30 then some 1
      else if 30 ≤ a ∧ a < 40 then some 2
      else if 40 ≤ a ∧ a < 50 then some 3
      else if 50 ≤ a ∧ a < 60 then some 4
      else if 60 ≤ a ∧ a < 70 then some 5
      else if 70 ≤ a ∧ a < 100 then some 6
      else none := by
  simp only [bins, cutIdx, Option.map_map]
  split_ifs <;> simp_all

theorem cutIdx_bins_lt {a : Int} {i : Nat} (h : cutIdx bins a = some i) :
    i < labels.length := by
  rw [cutIdx_bins_eq] at h
  split_ifs at h <;> simp_all [labels] <;> omega

theorem cutIdx_bins_none {a : Int} (h : a < 0 ∨ 100 ≤ a) : cutIdx bins a = none := by
  rw [cutIdx_bins_eq]
  split_ifs <;> first | rfl | omega

/-! ### `load` membership lemmas -/

theorem parseRow_eq_some {w : RawRecord} {r : Record} (h : parseRow w = some r) :
    w.contractDate = some r.contractDate ∧ w.price = some r.price ∧
    w.gender = some r.gender ∧ w.productName = some r.productName ∧
    w.cancellationDate = r.cancellationDate ∧ w.age = r.age ∧
    r.isCancelled = w.cancellationDate.isSome ∧ r.ageGroup = ageGroupIdxOf w.age := by
  rcases hcd : w.contractDate with _ | cd <;> rcases hpr : w.price with _ | pr <;>
    rcases hg : w.gender with _ | g <;> rcases hpn : w.productName with _ | pn <;>
      simp only [parseRow, hcd, hpr, hg, hpn] at h <;>
      try exact Option.noConfusion h
  have hr := Option.some_inj.mp h
  rw [← hr]
  simp [hcd, hpr, hg, hpn]

theorem mem_load {raws : List RawRecord} {r : Record} :
    r ∈ load raws ↔ ∃ w ∈ raws, parseRow w = some r := by
  unfold load
  rw [List.mem_insertionSort]
  exact List.mem_filterMap

/-! ### Table-level lemmas shared by several claims -/

theorem salesTrend_fst (fdf : List Record) :
    (salesTrend fdf).map Prod.fst
      = groupKeys (· ≤ ·) (fdf.map (fun r => r.contractDate.month)) := by
  unfold salesTrend
  rw [List.map_map]
  exact List.map_id _

theorem salesTrend_sum (fdf : List Record) :
    ((salesTrend fdf).map Prod.snd).sum = (fdf.map (fun r => r.price)).sum := by
  unfold salesTrend
  rw [List.map_map]
  exact sum_over_groups (fun r => r.price) (fun r => r.contractDate.month)
    (groupKeys (· ≤ ·) (fdf.map (fun r => r.contractDate.month)))
    (nodup_groupKeys (· ≤ ·) (fdf.map (fun r => r.contractDate.month))) fdf
    (fun a ha => mem_groupKeys.mpr (List.mem_map_of_mem _ ha))

theorem churnSummary_total (fdf : List Record) :
    ((churnSummary fdf).map (fun row => row.totalContracts)).sum = fdf.length := by
  unfold churnSummary
  rw [List.map_map]
  exact length_over_groups (fun r => r.productName)
    (groupKeys strLe (fdf.map (fun r => r.productName)))
    (nodup_groupKeys strLe (fdf.map (fun r => r.productName))) fdf
    (fun a ha => mem_groupKeys.mpr (List.mem_map_of_mem _ ha))

theorem churnTable_perm (fdf : List Record) :
    List.Perm (churnTable fdf) (churnSummary fdf) :=
  (List.reverse_perm _).trans (List.perm_insertionSort churnLe (churnSummary fdf))

theorem churnTable_total (fdf : List Record) :
    ((churnTable fdf).map (fun row => row.totalContracts)).sum = fdf.length := by
  rw [((churnTable_perm fdf).map (fun row => row.totalContracts)).sum_eq]
  exact churnSummary_total fdf

theorem ageGender_count_eq (fdf : List Record) (k : Nat × String) :
    (fdf.filter (fun r => agKeyOf r = some k)).length
      = ((fdf.filterMap agKeyOf).filter (fun x => x = k)).length := by
  induction fdf with
  | nil => simp
  | cons r l ih =>
    cases h : agKeyOf r with
    | none => simp [List.filter_cons, List.filterMap_cons, h, ih]
    | some y =>
      by_cases hk : y = k
      · subst hk
        simp [List.filter_cons, List.filterMap_cons, h, ih]
      · simp [List.filter_cons, List.filterMap_cons, h, hk, ih]

theorem ageGender_total (fdf : List Record) :
    ((ageGenderTable fdf).map (fun row => row.2)).sum
      = (fdf.filter (fun r => (r.ageGroup).isSome)).length := by
  unfold ageGenderTable
  rw [List.map_map]
  have hgrp := length_over_groups (fun x => x) (groupKeys agKeyLe (fdf.filterMap agKeyOf))
    (nodup_groupKeys agKeyLe (fdf.filterMap agKeyOf)) (fdf.filterMap agKeyOf)
    (fun a ha => mem_groupKeys.mpr ha)
  have hsome : (fdf.filter (fun a => (agKeyOf a).isSome)).length
      = (fdf.filter (fun r => (r.ageGroup).isSome)).length := by
    refine congrArg List.length (List.filter_congr (fun r _ => ?_))
    simp [agKeyOf]
  calc ((groupKeys agKeyLe (fdf.filterMap agKeyOf)).map
          (fun k => (fdf.filter (fun r => agKeyOf r = some k)).length)).sum
      = ((groupKeys agKeyLe (fdf.filterMap agKeyOf)).map
          (fun k => ((fdf.filterMap agKeyOf).filter (fun x => x = k)).length)).sum := by
        rw [List.map_congr_left (fun k _ => ageGender_count_eq fdf k)]
    _ = (fdf.filterMap agKeyOf).length := hgrp
    _ = (fdf.filter (fun a => (agKeyOf a).isSome)).length := length_filterMap_eq agKeyOf fdf
    _ = (fdf.filter (fun r => (r.ageGroup).isSome)).length := hsome

theorem salesTrend_mem_months (fdf : List Record) (m : Int) :
    m ∈ (salesTrend fdf).map Prod.fst ↔ ∃ r ∈ fdf, r.contractDate.month = m := by
  rw [salesTrend_fst]
  rw [mem_groupKeys]
  exact List.mem_map

theorem salesTrend_months_strict (fdf : List Record) :
    ((salesTrend fdf).map Prod.fst).Pairwise (· < ·) := by
  rw [salesTrend_fst]
  exact pairwise_strict_of_groupKeys (· ≤ ·) (· < ·)
    (fun a b hle hne => lt_of_le_of_ne hle hne) _

theorem churnTable_sorted (fdf : List Record) :
    (churnTable fdf).Pairwise (fun x y => y.churnRate ≤ x.churnRate) := by
  unfold churnTable
  exact List.pairwise_reverse.mpr (List.sorted_insertionSort churnLe (churnSummary fdf))

theorem churnSummary_fields {fdf : List Record} {row : ChurnRow}
    (h : row ∈ churnSummary fdf) :
    row.totalContracts = (fdf.filter (fun r => r.productName = row.productName)).length ∧
    row.cancellations
      = ((fdf.filter (fun r => r.productName = row.productName)).filter
          (fun r => r.isCancelled)).length ∧
    row.churnRate = ((row.cancellations : Rat) / (row.totalContracts : Rat)) * 100 ∧
    0 < row.totalContracts := by
  unfold churnSummary at h
  rw [List.mem_map] at h
  obtain ⟨p, hp, hrow⟩ := h
  have hpmem : p ∈ fdf.map (fun r => r.productName) := mem_groupKeys.mp hp
  rw [List.mem_map] at hpmem
  obtain ⟨r, hr, hrp⟩ := hpmem
  subst hrow
  refine ⟨rfl, rfl, rfl, ?_⟩
  have hmem : r ∈ fdf.filter (fun x => x.productName = p) :=
    List.mem_filter.mpr ⟨hr, by simp [hrp]⟩
  exact List.length_pos_of_mem hmem

theorem ageGenderTable_keys (fdf : List Record) :
    (ageGenderTable fdf).map Prod.fst = groupKeys agKeyLe (fdf.filterMap agKeyOf) := by
  unfold ageGenderTable
  rw [List.map_map]
  exact List.map_id _

theorem mem_ageGenderTable_keys (fdf : List Record) (i : Nat) (gen : String) :
    (i, gen) ∈ (ageGenderTable fdf).map Prod.fst ↔
      ∃ r ∈ fdf, r.ageGroup = some i ∧ r.gender = gen := by
  rw [ageGenderTable_keys, mem_groupKeys, List.mem_filterMap]
  constructor
  · rintro ⟨r, hr, hk⟩
    obtain ⟨j, hj, hpair⟩ : ∃ j, r.ageGroup = some j ∧ (j, r.gender) = (i, gen) := by
      simpa [agKeyOf, Option.map_eq_some'] using hk
    obtain ⟨hji, hgen⟩ := Prod.mk.injEq .. |>.mp hpair
    exact ⟨r, hr, hji ▸ hj, hgen⟩
  · rintro ⟨r, hr, h1, h2⟩
    exact ⟨r, hr, by simp [agKeyOf, h1, h2]⟩

theorem ageGenderTable_sorted (fdf : List Record) :
    (ageGenderTable fdf).Pairwise
      (fun x y => x.1.1 < y.1.1 ∨ (x.1.1 = y.1.1 ∧ x.1.2.data < y.1.2.data)) := by
  unfold ageGenderTable
  refine (pairwise_strict_of_groupKeys agKeyLe
      (fun a b => a.1 < b.1 ∨ (a.1 = b.1 ∧ a.2.data < b.2.data))
      (fun a b hle hne => ?_) (fdf.filterMap agKeyOf)).map _ (fun a b hab => hab)
  rcases hle with h | ⟨he, h2⟩
  · exact Or.inl h
  · refine Or.inr ⟨he, lt_of_le_of_ne h2 (fun hg => ?_)⟩
    exact hne (Prod.ext he (congrArg String.mk hg))

theorem ageGroupLabel_mem {i : Nat} (h : i < labels.length) : ageGroupLabel i ∈ labels := by
  have h7 : i < 7 := by simpa [labels] using h
  interval_cases i <;> decide

theorem load_ageGroup {raws : List RawRecord} {r : Record} (h : r ∈ load raws) :
    r.ageGroup = ageGroupIdxOf r.age := by
  obtain ⟨w, hw, hp⟩ := mem_load.mp h
  obtain ⟨_, _, _, _, _, hage, _, hag⟩ := parseRow_eq_some hp
  rw [hag, hage]

theorem filterDf_subset {df : List Record} {g p : String} {r : Record}
    (h : r ∈ filterDf df g p) : r ∈ df := by
  unfold filterDf copyDf at h
  by_cases hg : g = "All" <;> by_cases hp : p = "All" <;>
    simp [hg, hp, List.mem_filter] at h <;> tauto

/-! ### Claim theorems -/

/-- Claim C1 (amended): in the age-group x gender count table, every emitted
age-bucket index is one of the 7 fixed labels and rows appear in the fixed
label order (then by gender), but a (bucket, gender) combination is emitted
iff some filtered row carries it — zero-count buckets are omitted from the
table (the `groupby` runs with `observed=True`; the full fixed label order is
supplied to the chart layer only, as `category_orders`). -/
theorem claim1_ageGender_observed_in_fixed_order (raws : List RawRecord) (g p : String) :
    (ageGenderTable (filterDf (load raws) g p)).Pairwise
        (fun x y => x.1.1 < y.1.1 ∨ (x.1.1 = y.1.1 ∧ x.1.2.data < y.1.2.data)) ∧
    (∀ row ∈ ageGenderTable (filterDf (load raws) g p),
        row.1.1 < labels.length ∧ ageGroupLabel row.1.1 ∈ labels) ∧
    (∀ i gen, (i, gen) ∈ (ageGenderTable (filterDf (load raws) g p)).map Prod.fst ↔
        ∃ r ∈ filterDf (load raws) g p, r.ageGroup = some i ∧ r.gender = gen) := by
  refine ⟨ageGenderTable_sorted _, ?_, fun i gen => mem_ageGenderTable_keys _ i gen⟩
  intro row hrow
  have hkey : row.1 ∈ (ageGenderTable (filterDf (load raws) g p)).map Prod.fst :=
    List.mem_map_of_mem Prod.fst hrow
  obtain ⟨r, hr, hag, _⟩ :=
    (mem_ageGenderTable_keys (filterDf (load raws) g p) row.1.1 row.1.2).mp hkey
  have hload : r ∈ load raws := filterDf_subset hr
  have hidx : ageGroupIdxOf r.age = some row.1.1 := by
    rw [← load_ageGroup hload]
    exact hag
  obtain ⟨a, ha, hcut⟩ : ∃ a, r.age = some a ∧ cutIdx bins a = some row.1.1 := by
    rcases hae : r.age with _ | a
    · rw [hae] at hidx
      simp [ageGroupIdxOf] at hidx
    · rw [hae] at hidx
      exact ⟨a, rfl, by simpa [ageGroupIdxOf] using hidx⟩
  have hlt := cutIdx_bins_lt hcut
  exact ⟨hlt, ageGroupLabel_mem hlt⟩

/-- Claim C1 witness: a concrete one-row dataset whose table row satisfies
the amended properties. -/
theorem claim1_witness :
    (((1 : Nat), "F"), 1) ∈ ageGenderTable (filterDf (load [rawF25]) "All" "All") ∧
    (1 < labels.length ∧ ageGroupLabel 1 ∈ labels) := by
  refine ⟨by decide, ?_⟩
  exact (claim1_ageGender_observed_in_fixed_order [rawF25] "All" "All").2.1
    ((1, "F"), 1) (by decide)

/-- Claim C1 counterexample: with a single 25-year-old row, the table contains
no row whose bucket label is `"~19"` (nor any other zero-count bucket), so not
every one of the 7 labels appears as a category of the emitted table. -/
theorem claim1_cex_zero_count_bucket_omitted :
    ¬ ∀ lab ∈ labels, ∃ row ∈ ageGenderTable (filterDf (load [rawF25]) "All" "All"),
        ageGroupLabel row.1.1 = lab := by
  decide

/-- Claim C2 (amended): the churn-rate table is a permutation of the
per-product summary sorted by `churnRate` descending; equal-rate products are
NOT kept in stable input order — pandas reverses a stable ascending argsort,
so ties come out in reversed input order (see the counterexample). -/
theorem claim2_churnTable_sorted_desc (df : List Record) (g p : String) :
    (churnTable (filterDf df g p)).Pairwise (fun x y => y.churnRate ≤ x.churnRate) ∧
    List.Perm (churnTable (filterDf df g p)) (churnSummary (filterDf df g p)) :=
  ⟨churnTable_sorted _, churnTable_perm _⟩

/-- Claim C2 counterexample: two products with equal churn rate (both 100%)
enter the sort in input order A, B and leave it in order B, A — the tie is
reversed, not stable. -/
theorem claim2_cex_ties_reversed :
    ((churnSummary (filterDf (load [rawTieA, rawTieB]) "All" "All")).map
        (fun row => row.productName) = ["A", "B"]) ∧
    ((churnSummary (filterDf (load [rawTieA, rawTieB]) "All" "All")).map
        (fun row => row.churnRate) = [100, 100]) ∧
    ((churnTable (filterDf (load [rawTieA, rawTieB]) "All" "All")).map
        (fun row => row.productName) = ["B", "A"]) ∧
    ((churnTable (filterDf (load [rawTieA, rawTieB]) "All" "All")).map
        (fun row => row.productName) ≠ ["A", "B"]) :=
  of_decide_eq_true (by with_unfolding_all rfl)

/-- Claim C3 (amended): a missing source — `FileNotFoundError`, the only
error the `try/except` catches — degrades without raising to the empty
dataset whose option lists are exactly the single `"All"` sentinel, and every
callback invocation on it returns the no-data placeholder for all four
figures; a source that is present but unreadable or unparsable instead
propagates its read error uncaught. -/
theorem claim3_missing_source_degrades :
    initApp Source.missing = Except.ok emptyDashState ∧
    emptyDashState.df = [] ∧
    emptyDashState.genderOptions = [allOpt] ∧
    emptyDashState.productOptions = [allOpt] ∧
    (∀ g p, updateGraphs emptyDashState.df g p =
      { salesTimeSeries := Fig.placeholder noDataMsg,
        ageGenderDistribution := Fig.placeholder noDataMsg,
        productChurnRate := Fig.placeholder noDataMsg,
        ageChurnDistribution := Fig.placeholder noDataMsg }) ∧
    initApp Source.unreadable = Except.error CsvError.readFailure :=
  ⟨rfl, rfl, rfl, rfl, fun _ _ => rfl, rfl⟩

/-- Claim C3 counterexample: a present-but-unreadable source does not degrade
to any dataset at all — the `except` clause catches only `FileNotFoundError`,
so the read error propagates out of module initialisation. -/
theorem claim3_cex_unreadable_raises :
    initApp Source.unreadable = Except.error CsvError.readFailure ∧
    initApp Source.unreadable ≠ Except.ok emptyDashState :=
  ⟨rfl, fun h => Except.noConfusion h⟩

/-- Claim C4: the monthly revenue trend has strictly increasing months, one
row exactly per calendar month containing at least one contract of the
filtered subset, and its revenues sum to the exact total price of the
filtered subset. -/
theorem claim4_salesTrend_months (df : List Record) (g p : String) :
    ((salesTrend (filterDf df g p)).map Prod.fst).Pairwise (· < ·) ∧
    (∀ m : Int, m ∈ (salesTrend (filterDf df g p)).map Prod.fst ↔
        ∃ r ∈ filterDf df g p, r.contractDate.month = m) ∧
    ((salesTrend (filterDf df g p)).map Prod.snd).sum
        = ((filterDf df g p).map (fun r => r.price)).sum :=
  ⟨salesTrend_months_strict _, fun m => salesTrend_mem_months _ m, salesTrend_sum _⟩

/-- Claim C5: every churn row has `totalContracts` = its product group's row
count, `cancellations` = the group's cancelled-row count, rate
`100 * cancellations / totalContracts`; zero cancellations give exactly 0,
all-cancelled gives exactly 100, and `cancellations ≤ totalContracts`. -/
theorem claim5_churn_formula (df : List Record) (g p : String) :
    ∀ row ∈ churnTable (filterDf df g p),
      row.totalContracts
          = ((filterDf df g p).filter (fun r => r.productName = row.productName)).length ∧
      row.cancellations
          = (((filterDf df g p).filter (fun r => r.productName = row.productName)).filter
              (fun r => r.isCancelled)).length ∧
      row.churnRate = 100 * (row.cancellations : Rat) / (row.totalContracts : Rat) ∧
      row.cancellations ≤ row.totalContracts ∧
      (row.cancellations = 0 → row.churnRate = 0) ∧
      (row.cancellations = row.totalContracts → row.churnRate = 100) := by
  intro row hrow
  obtain ⟨ht, hc, hrate, hpos⟩ :=
    churnSummary_fields ((churnTable_perm (filterDf df g p)).mem_iff.mp hrow)
  refine ⟨ht, hc, ?_, ?_, ?_, ?_⟩
  · rw [hrate]
    ring
  · rw [ht, hc]
    exact List.length_filter_le _ _
  · intro h0
    rw [hrate, h0]
    simp
  · intro he
    have hne : ((row.totalContracts : Rat)) ≠ 0 :=
      Nat.cast_ne_zero.mpr (Nat.pos_iff_ne_zero.mp hpos)
    rw [hrate, he, div_self hne]
    simp

/-- Claim C5 witness: the concrete all-cancelled product-A dataset. -/
theorem claim5_witness :
    churnRowA ∈ churnTable (filterDf (load [rawTieA]) "All" "All") ∧
    (churnRowA.totalContracts
        = ((filterDf (load [rawTieA]) "All" "All").filter
            (fun r => r.productName = churnRowA.productName)).length ∧
     churnRowA.cancellations
        = (((filterDf (load [rawTieA]) "All" "All").filter
            (fun r => r.productName = churnRowA.productName)).filter
              (fun r => r.isCancelled)).length ∧
     churnRowA.churnRate
        = 100 * (churnRowA.cancellations : Rat) / (churnRowA.totalContracts : Rat) ∧
     churnRowA.cancellations ≤ churnRowA.totalContracts ∧
     (churnRowA.cancellations = 0 → churnRowA.churnRate = 0) ∧
     (churnRowA.cancellations = churnRowA.totalContracts → churnRowA.churnRate = 100)) :=
  ⟨of_decide_eq_true (by with_unfolding_all rfl),
   claim5_churn_formula (load [rawTieA]) "All" "All" churnRowA
     (of_decide_eq_true (by with_unfolding_all rfl))⟩

/-- Claim C6: age bucketing is total (and, being a function, single-valued)
on `[0,100)` with all values among the 7 labels; boundaries are
left-inclusive (age 20 lands in `"20s"`); ages at or above 100 are left
unclassified. -/
theorem claim6_age_bucketing (a : Int) :
    (0 ≤ a → a < 100 → ∃ i, ageGroupIdxOf (some a) = some i ∧ i < labels.length) ∧
    (100 ≤ a → ageGroupIdxOf (some a) = none) ∧
    ageGroupIdxOf (some 20) = some 1 ∧ ageGroupLabel 1 = "20s" := by
  refine ⟨fun h0 h1 => ?_, fun h => ?_, by decide, by decide⟩
  · have hb : ageGroupIdxOf (some a) = cutIdx bins a := by simp [ageGroupIdxOf]
    rw [hb, cutIdx_bins_eq]
    split_ifs <;> first | exact ⟨_, rfl, by decide⟩ | (exfalso; omega)
  · have hb : ageGroupIdxOf (some a) = cutIdx bins a := by simp [ageGroupIdxOf]
    rw [hb]
    exact cutIdx_bins_none (Or.inr h)

/-- Claim C6 witness: ages 25 and 120 at the two sides of the contract. -/
theorem claim6_witness :
    (∃ i, ageGroupIdxOf (some 25) = some i ∧ i < labels.length) ∧
    ageGroupIdxOf (some 120) = none :=
  ⟨(claim6_age_bucketing 25).1 (by decide) (by decide),
   (claim6_age_bucketing 120).2.1 (by decide)⟩

/-- Claim C7: for every raw input, each loaded record's four required fields
come from present values of some raw row (rows missing any of them were
dropped), and the loaded dataset is sorted by contract date ascending. -/
theorem claim7_load_invariants (raws : List RawRecord) :
    (∀ r ∈ load raws, ∃ w ∈ raws,
        w.contractDate = some r.contractDate ∧ w.price = some r.price ∧
        w.gender = some r.gender ∧ w.productName = some r.productName) ∧
    (load raws).Pairwise byDate := by
  constructor
  · intro r hr
    obtain ⟨w, hw, hp⟩ := mem_load.mp hr
    obtain ⟨h1, h2, h3, h4, _⟩ := parseRow_eq_some hp
    exact ⟨w, hw, h1, h2, h3, h4⟩
  · exact List.sorted_insertionSort byDate (raws.filterMap parseRow)

/-- Claim C7 witness: a concrete two-row load, with the membership hypothesis
discharged for the cleaned record of `rawOld`. -/
theorem claim7_witness :
    recOld ∈ load [rawF25, rawOld] ∧
    (∃ w ∈ [rawF25, rawOld],
        w.contractDate = some recOld.contractDate ∧ w.price = some recOld.price ∧
        w.gender = some recOld.gender ∧ w.productName = some recOld.productName) ∧
    (load [rawF25, rawOld]).Pairwise byDate :=
  ⟨by decide,
   (claim7_load_invariants [rawF25, rawOld]).1 recOld (by decide),
   (claim7_load_invariants [rawF25, rawOld]).2⟩

/-- Claim C8: selecting `"All"` for both filters produces exactly the figures
of aggregating the full dataset with no filtering step at all. -/
theorem claim8_all_filters_identity (df : List Record) :
    updateGraphs df "All" "All" = aggregateUnfiltered df := by
  unfold updateGraphs aggregateUnfiltered
  have h : filterDf df "All" "All" = df := by simp [filterDf, copyDf]
  rw [h]

/-- Claim C9: the callback never mutates the module-level dataset — threading
it as explicit state, the state after the call equals the state before, and
the figures are those of the pure computation. -/
theorem claim9_no_mutation (df : List Record) (g p : String) :
    (updateGraphsSt df g p).2 = df ∧ (updateGraphsSt df g p).1 = updateGraphs df g p :=
  ⟨rfl, rfl⟩

/-- Claim C10: a filtered record whose age lies outside `[0,100)` has a
missing age bucket, so the age-gender table counts strictly fewer rows than
the filtered subset, while the churn table still counts every row, the
revenue trend still sums every price, and the histogram still contains the
record's sample — the four tables of one call cover differing row sets. -/
theorem claim10_differing_rowsets (raws : List RawRecord) (g p : String)
    (r : Record) (a : Int) (hr : r ∈ filterDf (load raws) g p)
    (ha : r.age = some a) (hout : a < 0 ∨ 100 ≤ a) :
    ((ageGenderTable (filterDf (load raws) g p)).map (fun row => row.2)).sum
        = ((filterDf (load raws) g p).filter (fun x => (x.ageGroup).isSome)).length ∧
    ((ageGenderTable (filterDf (load raws) g p)).map (fun row => row.2)).sum
        < (filterDf (load raws) g p).length ∧
    ((churnTable (filterDf (load raws) g p)).map (fun row => row.totalContracts)).sum
        = (filterDf (load raws) g p).length ∧
    ((salesTrend (filterDf (load raws) g p)).map Prod.snd).sum
        = ((filterDf (load raws) g p).map (fun x => x.price)).sum ∧
    (a, r.isCancelled) ∈ histRows (filterDf (load raws) g p) := by
  have hload : r ∈ load raws := filterDf_subset hr
  have hag : r.ageGroup = none := by
    rw [load_ageGroup hload, ha]
    simpa [ageGroupIdxOf] using cutIdx_bins_none hout
  refine ⟨ageGender_total _, ?_, churnTable_total _, salesTrend_sum _, ?_⟩
  · rw [ageGender_total]
    refine List.length_filter_lt_length_iff_exists.mpr ⟨r, hr, ?_⟩
    simp [hag]
  · exact List.mem_filterMap.mpr ⟨r, hr, by simp [ha]⟩

/-- Claim C10 witness: the dataset with a 105-year-old record. -/
theorem claim10_witness :
    ((ageGenderTable (filterDf (load [rawF25, rawOld]) "All" "All")).map (fun row => row.2)).sum
        = ((filterDf (load [rawF25, rawOld]) "All" "All").filter
            (fun x => (x.ageGroup).isSome)).length ∧
    ((ageGenderTable (filterDf (load [rawF25, rawOld]) "All" "All")).map (fun row => row.2)).sum
        < (filterDf (load [rawF25, rawOld]) "All" "All").length ∧
    ((churnTable (filterDf (load [rawF25, rawOld]) "All" "All")).map
        (fun row => row.totalContracts)).sum
        = (filterDf (load [rawF25, rawOld]) "All" "All").length ∧
    ((salesTrend (filterDf (load [rawF25, rawOld]) "All" "All")).map Prod.snd).sum
        = ((filterDf (load [rawF25, rawOld]) "All" "All").map (fun x => x.price)).sum ∧
    (((105 : Int), recOld.isCancelled) ∈ histRows (filterDf (load [rawF25, rawOld]) "All" "All")) :=
  claim10_differing_rowsets [rawF25, rawOld] "All" "All" recOld 105
    (by decide) (by decide) (by decide)

end DataDash
